import Mathlib

/-!
Verification of the pathfinder repository's navigation and collision core.

The embedding models JavaScript `number` arithmetic with exact rationals
(`ℚ`); all coordinates, dimensions and distances in the source are meters
stored as JS numbers, and every operation the core performs on them
(addition, subtraction, multiplication by constants, comparison, rounding)
is exact on the rational inputs considered here.

Sources embedded:
  - `src/server/api/routers/store.ts` : `blocksOverlap`, `checkCollisionOptimized`
  - `src/lib/pathfinding.ts` : the A* pathfinding engine
-/

set_option allowUnsafeReducibility true

attribute [local semireducible] Rat.add Rat.sub Rat.mul Rat.inv Rat.ofScientific

namespace Pathfinder

/-- A 2D point (`src/types/index.ts`, `Point`). -/
structure Point where
  x : ℚ
  y : ℚ
deriving DecidableEq, Repr

/-- A rectangular obstacle (`src/types/index.ts`, `StoreBlock`).
Only the fields read by the collision and pathfinding core are modelled;
`type`, `name`, `rotation` and `color` are never consulted by those
functions. -/
structure StoreBlock where
  id : String
  x : ℚ
  y : ℚ
  width : ℚ
  height : ℚ
deriving DecidableEq, Repr

/-! ## Collision engine (`store.ts`) -/

/-- The 1 cm floating-point tolerance of `blocksOverlap`. -/
def tolerance : ℚ := 0.01

/-- Embedding of `blocksOverlap` (`store.ts` lines 206-218): AABB overlap
test with the 1 cm tolerance. -/
def blocksOverlap (block1 block2 : StoreBlock) : Bool :=
  !(decide (block1.x + block1.width ≤ block2.x + tolerance) ||
    decide (block2.x + block2.width ≤ block1.x + tolerance) ||
    decide (block1.y + block1.height ≤ block2.y + tolerance) ||
    decide (block2.y + block2.height ≤ block1.y + tolerance))

/-- Embedding of `checkCollisionOptimized` (`store.ts` lines 243-278).
The optional `excludeId` parameter is modelled as an `Option String`;
the JS comparison `block.id === excludeId` is false whenever `excludeId`
is `undefined`, which is `some block.id = excludeId` here.  The `for`
loop returning `true` on the first hit is `List.any`. -/
def checkCollisionOptimized (targetBlock : StoreBlock) (allBlocks : List StoreBlock)
    (excludeId : Option String) : Bool :=
  let margin : ℚ := 10
  let minX := targetBlock.x - margin
  let maxX := targetBlock.x + targetBlock.width + margin
  let minY := targetBlock.y - margin
  let maxY := targetBlock.y + targetBlock.height + margin
  allBlocks.any fun block =>
    if some block.id = excludeId ∨ block.id = targetBlock.id then false
    else if block.x > maxX ∨ block.x + block.width < minX ∨
            block.y > maxY ∨ block.y + block.height < minY then false
    else blocksOverlap targetBlock block

/-! ## Pathfinding engine (`pathfinding.ts`) -/

/-- Minimum clearance distance around obstacles, in meters
(`pathfinding.ts` line 18). -/
def PATHFINDING_CLEARANCE : ℚ := 0.1

/-- Grid resolution for pathfinding, in meters (`pathfinding.ts` line 24). -/
def PATHFINDING_GRID_SIZE : ℚ := 0.4

/-- Maximum search iterations (`pathfinding.ts` line 29). -/
def MAX_PATHFINDING_ITERATIONS : Nat := 20000

/-- A node of the A* search (`pathfinding.ts`, `PathNode`).  The source's
`parent: PathNode | null` field is modelled by the two constructors:
`root` is a node with `parent = null`, `child` carries its parent.  The
`f` component is stored already equal to `g + h`, which is the value the
source assigns right after constructing each node. -/
inductive PathNode where
  | root (x y g h f : ℚ)
  | child (x y g h f : ℚ) (parent : PathNode)

/-- The `x` field of a node. -/
def PathNode.x : PathNode → ℚ
  | .root a _ _ _ _ => a
  | .child a _ _ _ _ _ => a

/-- The `y` field of a node. -/
def PathNode.y : PathNode → ℚ
  | .root _ a _ _ _ => a
  | .child _ a _ _ _ _ => a

/-- The `g` field (cost from start) of a node. -/
def PathNode.g : PathNode → ℚ
  | .root _ _ a _ _ => a
  | .child _ _ a _ _ _ => a

/-- The `f` field (total cost) of a node. -/
def PathNode.f : PathNode → ℚ
  | .root _ _ _ _ a => a
  | .child _ _ _ _ a _ => a

/-- The position of a node as a `Point`. -/
def PathNode.point (n : PathNode) : Point := ⟨n.x, n.y⟩

/-- Result of a pathfinding operation (`pathfinding.ts`,
`PathfindingResult`). -/
structure PathfindingResult where
  success : Bool
  path : List Point
  distance : ℚ
  message : String
deriving DecidableEq, Repr

/-- Embedding of `isPointBlocked` (`pathfinding.ts` lines 65-83) at its
default clearance `PATHFINDING_CLEARANCE`, the only clearance the engine
ever uses. -/
def isPointBlocked (x y : ℚ) (blocks : List StoreBlock) : Bool :=
  blocks.any fun block =>
    decide (block.x - PATHFINDING_CLEARANCE ≤ x) &&
    decide (x ≤ block.x + block.width + PATHFINDING_CLEARANCE) &&
    decide (block.y - PATHFINDING_CLEARANCE ≤ y) &&
    decide (y ≤ block.y + block.height + PATHFINDING_CLEARANCE)

/-- Embedding of `getNeighbors` (`pathfinding.ts` lines 88-104) at the
default grid size: the four axis-aligned neighbors, keeping the
unblocked ones. -/
def getNeighbors (node : PathNode) (blocks : List StoreBlock) : List Point :=
  let gridSize := PATHFINDING_GRID_SIZE
  ([⟨node.x + gridSize, node.y⟩, ⟨node.x - gridSize, node.y⟩,
    ⟨node.x, node.y + gridSize⟩, ⟨node.x, node.y - gridSize⟩] : List Point).filter
    fun neighbor => !isPointBlocked neighbor.x neighbor.y blocks

/-- JS `Math.abs`. -/
def mathAbs (q : ℚ) : ℚ := if q < 0 then -q else q

/-- Embedding of `manhattanDistance` (`pathfinding.ts` lines 113-115). -/
def manhattanDistance (a b : Point) : ℚ :=
  mathAbs (a.x - b.x) + mathAbs (a.y - b.y)

/-- JS `Math.round`: round to the nearest integer, ties toward positive
infinity. -/
def mathRound (q : ℚ) : ℤ := ⌊q + 1/2⌋

/-- Embedding of `pointToKey` (`pathfinding.ts` lines 120-122).  The
source renders both coordinates with `toFixed(2)` (two decimal digits)
and concatenates the strings; we model the key as the pair of
coordinates scaled by 100 and rounded to the nearest integer, which
distinguishes exactly the same points on every coordinate the engine
feeds to it (multiples of the 0.4 m grid, where the rounding is exact
and ties never arise). -/
def pointToKey (point : Point) : ℤ × ℤ :=
  (mathRound (point.x * 100), mathRound (point.y * 100))

/-- Lookup in the model of the JS `Map` used for `gScore`: first entry
with a matching key, if any (`undefined`, i.e. `none`, is turned into
`Infinity` at the use site). -/
def mapGet (m : List ((ℤ × ℤ) × ℚ)) (k : ℤ × ℤ) : Option ℚ :=
  match m.find? (fun e => decide (e.1 = k)) with
  | none => none
  | some e => some e.2

/-- Update in the model of the JS `Map` used for `gScore`: overwrite the
entry with this key, or append a fresh one. -/
def mapSet (m : List ((ℤ × ℤ) × ℚ)) (k : ℤ × ℤ) (v : ℚ) : List ((ℤ × ℤ) × ℚ) :=
  match m with
  | [] => [(k, v)]
  | e :: rest => if e.1 = k then (k, v) :: rest else e :: mapSet rest k v

/-- Stable insertion of a node into a list sorted by ascending `f`. -/
def insertByF (n : PathNode) : List PathNode → List PathNode
  | [] => [n]
  | m :: rest => if n.f ≤ m.f then n :: m :: rest else m :: insertByF n rest

/-- Embedding of `openSet.sort((a, b) => a.f - b.f)` (`pathfinding.ts`
line 202): a stable sort by ascending `f`.  JS `Array.prototype.sort` is
stable, and every stable sort computes the same list, so stable
insertion sort is an exact model. -/
def sortByF : List PathNode → List PathNode
  | [] => []
  | n :: rest => insertByF n (sortByF rest)

/-- Embedding of `reconstructPath` (`pathfinding.ts` lines 127-137):
the chain of positions from the root ancestor down to the node. -/
def reconstructPath : PathNode → List Point
  | .root x y _ _ _ => [⟨x, y⟩]
  | .child x y _ _ _ parent => reconstructPath parent ++ [⟨x, y⟩]

/-- The goal test of the A* loop (`pathfinding.ts` lines 207-210). -/
def goalReached (n : PathNode) (endSnapped : Point) : Bool :=
  decide (mathAbs (n.x - endSnapped.x) < PATHFINDING_GRID_SIZE / 2) &&
  decide (mathAbs (n.y - endSnapped.y) < PATHFINDING_GRID_SIZE / 2)

/-- Decimal rendering of a nonnegative rational with one digit after the
point, as JS `toFixed(1)` produces on the distances this program
reports. -/
def toFixedOne (q : ℚ) : String :=
  let n : ℤ := ⌊q * 10 + 1/2⌋
  toString (n / 10) ++ "." ++ toString (n % 10).natAbs

/-- The failure result built after the search loop exits
(`pathfinding.ts` lines 265-275). -/
def noPathResult (iterations : Nat) : PathfindingResult :=
  ⟨false, [], 0,
    if MAX_PATHFINDING_ITERATIONS ≤ iterations then
      "Pathfinding timeout - layout may be too complex"
    else
      "No path found - destination may be unreachable"⟩

/-- The success result built when the goal is reached
(`pathfinding.ts` lines 211-222). -/
def successResult (n : PathNode) (iterations : Nat) : PathfindingResult :=
  ⟨true, reconstructPath n, n.g,
    "Path found! Distance: " ++ toFixedOne n.g ++ "m (" ++
      toString iterations ++ " iterations)"⟩

/-- Embedding of the body of the `for (const neighbor of neighbors)`
loop (`pathfinding.ts` lines 229-262), acting on the pair
(open set, gScore map). -/
def processNeighbor (currentNode : PathNode) (endSnapped : Point)
    (closedSet : List (ℤ × ℤ))
    (st : List PathNode × List ((ℤ × ℤ) × ℚ)) (neighbor : Point) :
    List PathNode × List ((ℤ × ℤ) × ℚ) :=
  let neighborKey := pointToKey neighbor
  if closedSet.contains neighborKey then st
  else
    let tentativeG := currentNode.g + PATHFINDING_GRID_SIZE
    let better := match mapGet st.2 neighborKey with
      | none => true
      | some currentG => decide (tentativeG < currentG)
    if better then
      let hScore := manhattanDistance neighbor endSnapped
      let neighborNode : PathNode :=
        .child neighbor.x neighbor.y tentativeG hScore (tentativeG + hScore) currentNode
      let gScore2 := mapSet st.2 neighborKey tentativeG
      match st.1.findIdx? (fun node => decide (pointToKey node.point = neighborKey)) with
      | some idx => (st.1.set idx neighborNode, gScore2)
      | none => (st.1 ++ [neighborNode], gScore2)
    else st

/-- Embedding of the A* `while` loop (`pathfinding.ts` lines 198-263),
instrumented to also return the final value of the `iterations`
counter.  `fuel` is the number of loop entries still allowed by the
`iterations < MAX_PATHFINDING_ITERATIONS` conjunct of the loop
condition; the loop maintains `fuel + iterations =
MAX_PATHFINDING_ITERATIONS`. -/
def astarLoop (blocks : List StoreBlock) (endSnapped : Point) :
    Nat → Nat → List PathNode → List (ℤ × ℤ) → List ((ℤ × ℤ) × ℚ) →
    PathfindingResult × Nat
  | 0, iterations, _, _, _ => (noPathResult iterations, iterations)
  | fuel + 1, iterations, openSet, closedSet, gScore =>
    match sortByF openSet with
    | [] => (noPathResult iterations, iterations)
    | currentNode :: restOpen =>
      if goalReached currentNode endSnapped then
        (successResult currentNode (iterations + 1), iterations + 1)
      else
        let closed2 := closedSet.insert (pointToKey currentNode.point)
        let st := (getNeighbors currentNode blocks).foldl
          (processNeighbor currentNode endSnapped closed2) (restOpen, gScore)
        astarLoop blocks endSnapped fuel (iterations + 1) st.1 closed2 st.2

/-- Snapping of a coordinate to the pathfinding grid
(`pathfinding.ts` lines 150-157). -/
def snapToGrid (q : ℚ) : ℚ :=
  (mathRound (q / PATHFINDING_GRID_SIZE) : ℚ) * PATHFINDING_GRID_SIZE

/-- Embedding of `findPath` (`pathfinding.ts` lines 143-275),
instrumented to also return the final value of the `iterations`
counter (0 on the early blocked-endpoint returns, where the loop is
never entered). -/
def findPathFull (start endPoint : Point) (blocks : List StoreBlock) :
    PathfindingResult × Nat :=
  let startSnapped : Point := ⟨snapToGrid start.x, snapToGrid start.y⟩
  let endSnapped : Point := ⟨snapToGrid endPoint.x, snapToGrid endPoint.y⟩
  if isPointBlocked startSnapped.x startSnapped.y blocks then
    (⟨false, [], 0, "Start point is blocked or too close to obstacles"⟩, 0)
  else if isPointBlocked endSnapped.x endSnapped.y blocks then
    (⟨false, [], 0, "End point is blocked or too close to obstacles"⟩, 0)
  else
    let hScore := manhattanDistance startSnapped endSnapped
    let startNode : PathNode :=
      .root startSnapped.x startSnapped.y 0 hScore (0 + hScore)
    astarLoop blocks endSnapped MAX_PATHFINDING_ITERATIONS 0 [startNode]
      [] [(pointToKey startSnapped, 0)]

/-- Embedding of `findPath`: the `PathfindingResult` the caller sees. -/
def findPath (start endPoint : Point) (blocks : List StoreBlock) :
    PathfindingResult :=
  (findPathFull start endPoint blocks).1

/-- Middle section of `optimizePath` (`pathfinding.ts` lines 290-309):
walking triples of consecutive points of the original path, keep each
middle point whose incoming and outgoing direction vectors differ. -/
def optimizeMid : List Point → List Point
  | prev :: current :: next :: rest =>
    (if current.x - prev.x ≠ next.x - current.x ∨
        current.y - prev.y ≠ next.y - current.y
     then [current] else []) ++ optimizeMid (current :: next :: rest)
  | _ => []

/-- Embedding of `optimizePath` (`pathfinding.ts` lines 285-313): paths
of at most 2 points are returned unchanged; otherwise the first point,
the direction-changing middle points, and the last point are kept. -/
def optimizePath : List Point → List Point
  | p0 :: p1 :: p2 :: rest =>
    p0 :: (optimizeMid (p0 :: p1 :: p2 :: rest) ++ [(p2 :: rest).getLastD p2])
  | short => short

/-- Embedding of `calculatePathDistance` (`pathfinding.ts` lines
322-328): sum of Manhattan distances over consecutive waypoints. -/
def calculatePathDistance : List Point → ℚ
  | a :: b :: rest => manhattanDistance a b + calculatePathDistance (b :: rest)
  | _ => 0

/-- Invariant of every node the search ever creates: every position on
its ancestor chain is unblocked, the root of the chain has cost 0, and
every link is a single grid step, reflected exactly in the `g` costs. -/
def goodNode (blocks : List StoreBlock) : PathNode → Prop
  | .root x y g _ _ => isPointBlocked x y blocks = false ∧ g = 0
  | .child x y g _ _ p =>
      isPointBlocked x y blocks = false ∧
      manhattanDistance p.point ⟨x, y⟩ = PATHFINDING_GRID_SIZE ∧
      g = p.g + PATHFINDING_GRID_SIZE ∧
      goodNode blocks p

/-! ## The collision engine claims (C1, C2) -/

/-- Unfolding of `blocksOverlap` into the four strict inequalities. -/
lemma blocksOverlap_eq_true_iff (a b : StoreBlock) :
    blocksOverlap a b = true ↔
      (b.x + tolerance < a.x + a.width ∧ a.x + tolerance < b.x + b.width ∧
       b.y + tolerance < a.y + a.height ∧ a.y + tolerance < b.y + b.height) := by
  simp only [blocksOverlap, Bool.not_eq_true', Bool.or_eq_false_iff,
    decide_eq_false_iff_not, not_le]
  tauto

/-- A block rejected by the broad phase cannot overlap the target. -/
lemma broadphase_rejected_no_overlap (t b : StoreBlock)
    (hrej : b.x > t.x + t.width + 10 ∨ b.x + b.width < t.x - 10 ∨
            b.y > t.y + t.height + 10 ∨ b.y + b.height < t.y - 10) :
    blocksOverlap t b = false := by
  have htol : tolerance = 0.01 := rfl
  rw [← Bool.not_eq_true, blocksOverlap_eq_true_iff]
  rcases hrej with h | h | h | h
  · intro hc
    have := hc.1
    rw [htol] at this
    linarith
  · intro hc
    have := hc.2.1
    rw [htol] at this
    linarith
  · intro hc
    have := hc.2.2.1
    rw [htol] at this
    linarith
  · intro hc
    have := hc.2.2.2
    rw [htol] at this
    linarith

/-- C2: `blocksOverlap a b` is true iff the rectangles overlap by strictly
more than the 1 cm tolerance on both axes
(`a.x + a.width > b.x + 0.01`, `b.x + b.width > a.x + 0.01`, and likewise
on y); merely edge-adjacent rectangles (touching, separated, or
overlapping by at most 1 cm on some axis) are therefore not considered
overlapping. -/
theorem blocksOverlap_iff_strict_overlap (a b : StoreBlock) :
    blocksOverlap a b = true ↔
      (a.x + a.width > b.x + 0.01 ∧ b.x + b.width > a.x + 0.01 ∧
       a.y + a.height > b.y + 0.01 ∧ b.y + b.height > a.y + 0.01) := by
  have h := blocksOverlap_eq_true_iff a b
  have htol : tolerance = 0.01 := rfl
  rw [htol] at h
  exact h

/-- C1: with every obstacle's width and height bounded by the 10 m
broad-phase margin, `checkCollisionOptimized` returns true iff some
obstacle whose id differs from `excludeId` and from the target's own id
overlaps the target according to `blocksOverlap`: the broad-phase
bounding-box rejection never changes the boolean result of the
brute-force pairwise check. -/
theorem checkCollisionOptimized_eq_bruteForce (target : StoreBlock)
    (obstacles : List StoreBlock) (excludeId : Option String)
    (_hdim : ∀ b ∈ obstacles, b.width ≤ 10 ∧ b.height ≤ 10) :
    (checkCollisionOptimized target obstacles excludeId = true ↔
      ∃ b ∈ obstacles, some b.id ≠ excludeId ∧ b.id ≠ target.id ∧
        blocksOverlap target b = true) := by
  unfold checkCollisionOptimized
  simp only [List.any_eq_true]
  constructor
  · rintro ⟨b, hb, hval⟩
    refine ⟨b, hb, ?_⟩
    by_cases hexcl : some b.id = excludeId ∨ b.id = target.id
    · simp [hexcl] at hval
    · push_neg at hexcl
      by_cases hrej : b.x > target.x + target.width + 10 ∨
          b.x + b.width < target.x - 10 ∨
          b.y > target.y + target.height + 10 ∨
          b.y + b.height < target.y - 10
      · rw [if_neg (by tauto), if_pos hrej] at hval
        exact absurd hval (by simp)
      · rw [if_neg (by tauto), if_neg hrej] at hval
        exact ⟨hexcl.1, hexcl.2, hval⟩
  · rintro ⟨b, hb, hne, hnt, hov⟩
    refine ⟨b, hb, ?_⟩
    have hnrej : ¬(b.x > target.x + target.width + 10 ∨
        b.x + b.width < target.x - 10 ∨
        b.y > target.y + target.height + 10 ∨
        b.y + b.height < target.y - 10) := by
      intro hrej
      rw [broadphase_rejected_no_overlap target b hrej] at hov
      exact Bool.false_ne_true hov
    rw [if_neg (by tauto), if_neg hnrej]
    exact hov

/-- Witness for C1 at a concrete input: one obstacle overlapping the
target, no exclusion. -/
theorem checkCollisionOptimized_eq_bruteForce_witness :
    (checkCollisionOptimized ⟨"t", 0, 0, 1, 1⟩ [⟨"b", 0.5, 0, 1, 1⟩] none = true ↔
      ∃ b ∈ [(⟨"b", 0.5, 0, 1, 1⟩ : StoreBlock)], some b.id ≠ none ∧ b.id ≠ "t" ∧
        blocksOverlap ⟨"t", 0, 0, 1, 1⟩ b = true) :=
  checkCollisionOptimized_eq_bruteForce ⟨"t", 0, 0, 1, 1⟩ [⟨"b", 0.5, 0, 1, 1⟩] none
    (by decide)

/-! ## Basic facts about distances and paths -/

/-- The model of `Math.abs` agrees with the absolute value on `ℚ`. -/
lemma mathAbs_eq_abs (q : ℚ) : mathAbs q = |q| := by
  unfold mathAbs
  split
  · rw [abs_of_neg]
    assumption
  · rw [abs_of_nonneg]
    linarith [not_lt.mp (by assumption : ¬q < 0)]


/-- The model of `Math.abs` is nonnegative. -/
lemma mathAbs_nonneg (q : ℚ) : 0 ≤ mathAbs q := by
  rw [mathAbs_eq_abs]
  exact abs_nonneg q

/-- Manhattan distances are nonnegative. -/
lemma manhattanDistance_nonneg (a b : Point) : 0 ≤ manhattanDistance a b := by
  unfold manhattanDistance
  have h1 := mathAbs_nonneg (a.x - b.x)
  have h2 := mathAbs_nonneg (a.y - b.y)
  linarith

/-- Triangle inequality for the Manhattan distance. -/
lemma manhattanDistance_triangle (a b c : Point) :
    manhattanDistance a c ≤ manhattanDistance a b + manhattanDistance b c := by
  unfold manhattanDistance
  rw [mathAbs_eq_abs, mathAbs_eq_abs, mathAbs_eq_abs, mathAbs_eq_abs,
    mathAbs_eq_abs, mathAbs_eq_abs]
  have hx : |a.x - c.x| ≤ |a.x - b.x| + |b.x - c.x| := abs_sub_le _ _ _
  have hy : |a.y - c.y| ≤ |a.y - b.y| + |b.y - c.y| := abs_sub_le _ _ _
  linarith

/-- Path distances are nonnegative. -/
lemma calculatePathDistance_nonneg : ∀ l : List Point, 0 ≤ calculatePathDistance l
  | [] => le_of_eq rfl
  | [_] => le_of_eq rfl
  | a :: b :: rest => by
    have h1 := manhattanDistance_nonneg a b
    have h2 := calculatePathDistance_nonneg (b :: rest)
    simp only [calculatePathDistance]
    linarith

/-- Dropping the head of a path cannot increase its distance. -/
lemma calculatePathDistance_tail_le : ∀ (l : List Point) (a : Point),
    calculatePathDistance l ≤ calculatePathDistance (a :: l)
  | [], a => le_of_eq rfl
  | b :: rest, a => by
    have h1 := manhattanDistance_nonneg a b
    simp only [calculatePathDistance]
    linarith

/-- Inserting a detour point at the head of a path obeys the triangle
inequality. -/
lemma calculatePathDistance_cons_le : ∀ (l : List Point) (x y : Point),
    calculatePathDistance (x :: l) ≤
      manhattanDistance x y + calculatePathDistance (y :: l)
  | [], x, y => by
    simp only [calculatePathDistance, add_zero]
    exact manhattanDistance_nonneg x y
  | b :: rest, x, y => by
    have ht := manhattanDistance_triangle x y b
    simp only [calculatePathDistance]
    linarith

/-- Distance is monotone under sublists, keeping a common head. -/
lemma calculatePathDistance_sublist_cons {l₁ l₂ : List Point}
    (h : List.Sublist l₁ l₂) :
    ∀ x : Point, calculatePathDistance (x :: l₁) ≤ calculatePathDistance (x :: l₂) := by
  induction h with
  | slnil => exact fun x => le_refl _
  | cons a _ ih =>
    intro x
    refine le_trans (ih x) (le_trans (calculatePathDistance_cons_le _ x a) ?_)
    simp only [calculatePathDistance]
    exact le_refl _
  | cons₂ a _ ih =>
    intro x
    have h1 := ih a
    simp only [calculatePathDistance]
    linarith

/-- A sublist of a path is at most as long (in Manhattan length) as the
path itself. -/
lemma calculatePathDistance_sublist {l₁ l₂ : List Point}
    (h : List.Sublist l₁ l₂) :
    calculatePathDistance l₁ ≤ calculatePathDistance l₂ := by
  induction h with
  | slnil => exact le_refl _
  | cons a h ih =>
    exact le_trans ih (calculatePathDistance_tail_le _ a)
  | cons₂ a h ih =>
    exact calculatePathDistance_sublist_cons h a

/-! ## Path simplification (C6) -/

/-- The middle points kept by `optimizePath` form a sublist of the input
with its last element removed. -/
lemma optimizeMid_sublist : ∀ (l : List Point) (p : Point),
    List.Sublist (optimizeMid (p :: l)) l.dropLast
  | [], _ => by simp [optimizeMid]
  | [_], _ => by simp [optimizeMid]
  | c :: n :: rest, p => by
    have ih := optimizeMid_sublist (n :: rest) c
    show List.Sublist ((if c.x - p.x ≠ n.x - c.x ∨ c.y - p.y ≠ n.y - c.y
        then [c] else []) ++ optimizeMid (c :: n :: rest)) (c :: n :: rest).dropLast
    have hdrop : (c :: n :: rest).dropLast = c :: (n :: rest).dropLast := rfl
    rw [hdrop]
    split
    · exact (ih.cons₂ c)
    · simp only [List.nil_append]
      exact ih.cons c

/-- The last element `optimizePath` appends in its main branch is the
last element of the input. -/
lemma getLast?_eq_getLastD : ∀ (l : List Point) (a : Point),
    (a :: l).getLast? = some (l.getLastD a)
  | [], a => rfl
  | b :: t, a => by
    rw [List.getLast?_cons_cons, getLast?_eq_getLastD t b, List.getLastD_cons]

/-- C6: `optimizePath` keeps the first and last waypoints (stated via
`head?`/`getLast?`, which also covers the empty path) and never
increases the total Manhattan length of the path. -/
theorem optimizePath_endpoints_and_length (path : List Point) :
    (optimizePath path).head? = path.head? ∧
    (optimizePath path).getLast? = path.getLast? ∧
    calculatePathDistance (optimizePath path) ≤ calculatePathDistance path := by
  match path with
  | [] => exact ⟨rfl, rfl, le_refl _⟩
  | [a] => exact ⟨rfl, rfl, le_refl _⟩
  | [a, b] => exact ⟨rfl, rfl, le_refl _⟩
  | p0 :: p1 :: p2 :: rest =>
    have hz : (p2 :: rest).getLastD p2 = (p1 :: p2 :: rest).getLastD p0 := by
      simp only [List.getLastD_cons]
    have hopt : optimizePath (p0 :: p1 :: p2 :: rest) =
        (p0 :: optimizeMid (p0 :: p1 :: p2 :: rest)) ++ [(p2 :: rest).getLastD p2] := by
      simp [optimizePath]
    have hne : (p1 :: p2 :: rest : List Point) ≠ [] := by simp
    have hlast : (p1 :: p2 :: rest).getLast hne = (p2 :: rest).getLastD p2 := by
      rw [List.getLast_eq_getLastD]
      simp only [List.getLastD_cons]
    have h4 : (p1 :: p2 :: rest).dropLast ++ [(p2 :: rest).getLastD p2] =
        p1 :: p2 :: rest := by
      rw [← hlast]
      exact List.dropLast_concat_getLast hne
    have hsub : List.Sublist (optimizePath (p0 :: p1 :: p2 :: rest))
        (p0 :: p1 :: p2 :: rest) := by
      rw [hopt]
      have h1 : List.Sublist (optimizeMid (p0 :: p1 :: p2 :: rest))
          (p1 :: p2 :: rest).dropLast :=
        optimizeMid_sublist (p1 :: p2 :: rest) p0
      have h2 := h1.cons₂ p0
      have h3 := h2.append (List.Sublist.refl [(p2 :: rest).getLastD p2])
      have h5 : (p0 :: (p1 :: p2 :: rest).dropLast) ++ [(p2 :: rest).getLastD p2] =
          p0 :: p1 :: p2 :: rest := by
        rw [List.cons_append, h4]
      rw [h5] at h3
      exact h3
    refine ⟨?_, ?_, calculatePathDistance_sublist hsub⟩
    · rw [hopt]
      rfl
    · rw [hopt, List.getLast?_concat,
        getLast?_eq_getLastD (p1 :: p2 :: rest) p0, hz]

/-! ## Invariants of the A* search (C3, C4, C10) -/

/-- A reconstructed path is never empty. -/
lemma reconstructPath_ne_nil : ∀ n : PathNode, reconstructPath n ≠ []
  | .root _ _ _ _ _ => by simp [reconstructPath]
  | .child _ _ _ _ _ _ => by simp [reconstructPath]

/-- A reconstructed path ends at the node's own position. -/
lemma reconstructPath_getLastD : ∀ (n : PathNode) (d : Point),
    (reconstructPath n).getLastD d = n.point
  | .root x y g h f, d => rfl
  | .child x y g h f p, d => by
    show ((reconstructPath p) ++ [(⟨x, y⟩ : Point)]).getLastD d =
      (PathNode.child x y g h f p).point
    rw [List.getLastD_concat]
    rfl

/-- The Manhattan distance from a point to itself is zero. -/
lemma manhattanDistance_self (a : Point) : manhattanDistance a a = 0 := by
  unfold manhattanDistance mathAbs
  simp

/-- Appending one waypoint adds the distance from the old last waypoint. -/
lemma calculatePathDistance_concat : ∀ (l : List Point) (pt : Point),
    calculatePathDistance (l ++ [pt]) =
      calculatePathDistance l + manhattanDistance (l.getLastD pt) pt
  | [], pt => by
    simp [calculatePathDistance, manhattanDistance_self]
  | [a], pt => by
    simp [calculatePathDistance]
  | a :: b :: rest, pt => by
    have ih := calculatePathDistance_concat (b :: rest) pt
    show calculatePathDistance (a :: ((b :: rest) ++ [pt])) = _
    have h1 : calculatePathDistance (a :: ((b :: rest) ++ [pt])) =
        manhattanDistance a b + calculatePathDistance ((b :: rest) ++ [pt]) := rfl
    rw [h1, ih, List.getLastD_cons]
    show _ = manhattanDistance a b + calculatePathDistance (b :: rest) +
      manhattanDistance ((b :: rest).getLastD a) pt
    rw [List.getLastD_cons]
    ring

/-- On a good node, the source's incrementally maintained `g` cost equals
the Manhattan length of the reconstructed path. -/
lemma goodNode_pathdist {blocks : List StoreBlock} :
    ∀ n : PathNode, goodNode blocks n →
      calculatePathDistance (reconstructPath n) = n.g
  | .root x y g h f, hg => by
    obtain ⟨-, hg0⟩ := hg
    show calculatePathDistance [⟨x, y⟩] = g
    rw [hg0]
    rfl
  | .child x y g h f p, hg => by
    obtain ⟨-, hstep, hlink, hp⟩ := hg
    have ih := goodNode_pathdist p hp
    show calculatePathDistance (reconstructPath p ++ [⟨x, y⟩]) = g
    rw [calculatePathDistance_concat, ih, reconstructPath_getLastD, hstep, hlink]

/-- On a good node, every waypoint of the reconstructed path is
unblocked. -/
lemma goodNode_unblocked {blocks : List StoreBlock} :
    ∀ n : PathNode, goodNode blocks n →
      ∀ p ∈ reconstructPath n, isPointBlocked p.x p.y blocks = false
  | .root x y g h f, hg => by
    obtain ⟨hfree, -⟩ := hg
    intro p hp
    have : p = (⟨x, y⟩ : Point) := by simpa [reconstructPath] using hp
    rw [this]
    exact hfree
  | .child x y g h f par, hg => by
    obtain ⟨hfree, -, -, hpar⟩ := hg
    intro p hp
    have hp' : p ∈ reconstructPath par ++ [(⟨x, y⟩ : Point)] := hp
    rcases List.mem_append.mp hp' with h1 | h2
    · exact goodNode_unblocked par hpar p h1
    · have : p = (⟨x, y⟩ : Point) := by simpa using h2
      rw [this]
      exact hfree

/-- Insertion keeps exactly the members. -/
lemma mem_insertByF {x n : PathNode} : ∀ {l : List PathNode},
    x ∈ insertByF n l → x = n ∨ x ∈ l := by
  intro l
  induction l with
  | nil => intro hx; exact Or.inl (List.mem_singleton.mp hx)
  | cons m rest ih =>
    intro hx
    unfold insertByF at hx
    split at hx
    · rcases List.mem_cons.mp hx with h | h
      · exact Or.inl h
      · exact Or.inr h
    · rcases List.mem_cons.mp hx with h | h
      · exact Or.inr (by simp [h])
      · rcases ih h with h1 | h2
        · exact Or.inl h1
        · exact Or.inr (List.mem_cons_of_mem m h2)

/-- Sorting keeps exactly the members. -/
lemma mem_sortByF {x : PathNode} : ∀ {l : List PathNode},
    x ∈ sortByF l → x ∈ l := by
  intro l
  induction l with
  | nil => intro hx; simp [sortByF] at hx
  | cons n rest ih =>
    intro hx
    unfold sortByF at hx
    rcases mem_insertByF hx with h | h
    · simp [h]
    · exact List.mem_cons_of_mem n (ih h)

/-- Every neighbor the search considers is unblocked. -/
lemma getNeighbors_unblocked {node : PathNode} {blocks : List StoreBlock}
    {nb : Point} (h : nb ∈ getNeighbors node blocks) :
    isPointBlocked nb.x nb.y blocks = false := by
  unfold getNeighbors at h
  have := (List.mem_filter.mp h).2
  simpa using this

/-- Every neighbor the search considers is exactly one grid step from the
node it came from. -/
lemma getNeighbors_step {node : PathNode} {blocks : List StoreBlock}
    {nb : Point} (h : nb ∈ getNeighbors node blocks) :
    manhattanDistance node.point nb = PATHFINDING_GRID_SIZE := by
  unfold getNeighbors at h
  have hmem := (List.mem_filter.mp h).1
  fin_cases hmem <;>
    simp [manhattanDistance, PathNode.point] <;> decide

/-- Processing one neighbor preserves goodness of all open-set nodes. -/
lemma processNeighbor_good {blocks : List StoreBlock} {cur : PathNode}
    {endS : Point} {closed : List (ℤ × ℤ)}
    {st : List PathNode × List ((ℤ × ℤ) × ℚ)} {nb : Point}
    (hcur : goodNode blocks cur)
    (hnb : nb ∈ getNeighbors cur blocks)
    (hst : ∀ n ∈ st.1, goodNode blocks n) :
    ∀ n ∈ (processNeighbor cur endS closed st nb).1, goodNode blocks n := by
  intro n hn
  simp only [processNeighbor] at hn
  split at hn
  · exact hst n hn
  · split at hn
    · have hnew : goodNode blocks
          (PathNode.child nb.x nb.y (cur.g + PATHFINDING_GRID_SIZE)
            (manhattanDistance nb endS)
            (cur.g + PATHFINDING_GRID_SIZE + manhattanDistance nb endS) cur) := by
        refine ⟨getNeighbors_unblocked hnb, ?_, rfl, hcur⟩
        exact getNeighbors_step hnb
      split at hn
      · rcases List.mem_or_eq_of_mem_set hn with h1 | h2
        · exact hst n h1
        · rw [h2]; exact hnew
      · rcases List.mem_append.mp hn with h1 | h2
        · exact hst n h1
        · rw [List.mem_singleton.mp h2]; exact hnew
    · exact hst n hn

/-- Folding the neighbor loop preserves goodness of all open-set nodes. -/
lemma foldl_processNeighbor_good {blocks : List StoreBlock} {cur : PathNode}
    {endS : Point} {closed : List (ℤ × ℤ)} (hcur : goodNode blocks cur) :
    ∀ (nbs : List Point) (st : List PathNode × List ((ℤ × ℤ) × ℚ)),
      (∀ nb ∈ nbs, nb ∈ getNeighbors cur blocks) →
      (∀ n ∈ st.1, goodNode blocks n) →
      ∀ n ∈ (nbs.foldl (processNeighbor cur endS closed) st).1, goodNode blocks n
  | [], st, _, hst => hst
  | nb :: rest, st, hnbs, hst => by
    have hstep := @processNeighbor_good blocks cur endS closed st nb hcur
      (hnbs nb (by simp)) hst
    have htail := @foldl_processNeighbor_good blocks cur endS closed hcur rest
      (processNeighbor cur endS closed st nb)
      (fun p hp => hnbs p (List.mem_cons_of_mem nb hp)) hstep
    rw [List.foldl_cons]
    exact htail

/-- Any success of the search loop comes from a good node: the result's
path is that node's reconstructed chain and the result's distance is
that node's `g` cost. -/
lemma astarLoop_success_good {blocks : List StoreBlock} {endS : Point} :
    ∀ (fuel iters : Nat) (openSet : List PathNode) (closed : List (ℤ × ℤ))
      (gsc : List ((ℤ × ℤ) × ℚ)),
      (∀ n ∈ openSet, goodNode blocks n) →
      (astarLoop blocks endS fuel iters openSet closed gsc).1.success = true →
      ∃ n, goodNode blocks n ∧
        (astarLoop blocks endS fuel iters openSet closed gsc).1.path =
          reconstructPath n ∧
        (astarLoop blocks endS fuel iters openSet closed gsc).1.distance = n.g := by
  intro fuel
  induction fuel with
  | zero =>
    intro iters openSet closed gsc _ hsucc
    simp [astarLoop, noPathResult] at hsucc
  | succ fuel ih =>
    intro iters openSet closed gsc hgood hsucc
    rw [astarLoop] at hsucc ⊢
    cases hs : sortByF openSet with
    | nil =>
      rw [hs] at hsucc
      simp [noPathResult] at hsucc
    | cons current rest =>
      rw [hs] at hsucc
      dsimp only at hsucc ⊢
      have hcur : goodNode blocks current :=
        hgood current (mem_sortByF (by rw [hs]; exact List.mem_cons_self current rest))
      have hrest : ∀ n ∈ rest, goodNode blocks n := fun n hn =>
        hgood n (mem_sortByF (by rw [hs]; exact List.mem_cons_of_mem current hn))
      by_cases hgoal : goalReached current endS = true
      · rw [if_pos hgoal] at hsucc ⊢
        exact ⟨current, hcur, rfl, rfl⟩
      · rw [if_neg hgoal] at hsucc ⊢
        exact ih _ _ _ _
          (foldl_processNeighbor_good hcur _ _ (fun nb h => h) hrest) hsucc

/-- Any success of `findPath` comes from a good node whose chain is the
returned path and whose `g` cost is the returned distance. -/
lemma findPath_success_reconstruct (s e : Point) (blocks : List StoreBlock)
    (hsucc : (findPath s e blocks).success = true) :
    ∃ n, goodNode blocks n ∧ (findPath s e blocks).path = reconstructPath n ∧
      (findPath s e blocks).distance = n.g := by
  unfold findPath findPathFull at hsucc ⊢
  dsimp only at hsucc ⊢
  by_cases hb1 : isPointBlocked (snapToGrid s.x) (snapToGrid s.y) blocks = true
  · rw [if_pos hb1] at hsucc
    simp at hsucc
  · rw [if_neg hb1] at hsucc ⊢
    by_cases hb2 : isPointBlocked (snapToGrid e.x) (snapToGrid e.y) blocks = true
    · rw [if_pos hb2] at hsucc
      simp at hsucc
    · rw [if_neg hb2] at hsucc ⊢
      refine astarLoop_success_good _ _ _ _ _ ?_ hsucc
      intro n hn
      rw [List.mem_singleton.mp hn]
      exact ⟨by simpa using hb1, rfl⟩

/-- C3: whenever `findPath` succeeds, re-deriving the distance from the
returned waypoint list with `calculatePathDistance` gives exactly the
reported `distance`. -/
theorem findPath_distance_eq_path_length (s e : Point) (blocks : List StoreBlock)
    (hsucc : (findPath s e blocks).success = true) :
    calculatePathDistance (findPath s e blocks).path =
      (findPath s e blocks).distance := by
  obtain ⟨n, hg, hpath, hdist⟩ := findPath_success_reconstruct s e blocks hsucc
  rw [hpath, hdist, goodNode_pathdist n hg]

/-- Witness for C3 at a concrete succeeding query. -/
theorem findPath_distance_eq_path_length_witness :
    calculatePathDistance (findPath ⟨0, 0⟩ ⟨0, 0⟩ []).path =
      (findPath ⟨0, 0⟩ ⟨0, 0⟩ []).distance :=
  findPath_distance_eq_path_length ⟨0, 0⟩ ⟨0, 0⟩ [] (by decide)

/-- C4 (counterexample): a query whose start and end snap to the same
grid cell succeeds with a single-waypoint path, so a successful
`PathResult` need not contain at least 2 waypoints. -/
theorem findPath_two_waypoints_counterexample :
    (findPath ⟨0, 0⟩ ⟨0, 0⟩ []).success = true ∧
    (findPath ⟨0, 0⟩ ⟨0, 0⟩ []).path.length < 2 := by
  constructor
  · decide
  · decide

/-- C4 (amended): whenever `findPath` succeeds, the returned path
contains at least 1 waypoint. -/
theorem findPath_success_path_nonempty (s e : Point) (blocks : List StoreBlock)
    (hsucc : (findPath s e blocks).success = true) :
    1 ≤ (findPath s e blocks).path.length := by
  obtain ⟨n, -, hpath, -⟩ := findPath_success_reconstruct s e blocks hsucc
  rw [hpath]
  exact List.length_pos.mpr (reconstructPath_ne_nil n)

/-- Witness for the amended C4 at a concrete succeeding query. -/
theorem findPath_success_path_nonempty_witness :
    1 ≤ (findPath ⟨0, 0⟩ ⟨0, 0⟩ []).path.length :=
  findPath_success_path_nonempty ⟨0, 0⟩ ⟨0, 0⟩ [] (by decide)

/-- C10: whenever `findPath` succeeds, no waypoint of the returned path
lies inside any obstacle's clearance-inflated bounds. -/
theorem findPath_waypoints_unblocked (s e : Point) (blocks : List StoreBlock)
    (hsucc : (findPath s e blocks).success = true) :
    ∀ p ∈ (findPath s e blocks).path, isPointBlocked p.x p.y blocks = false := by
  obtain ⟨n, hg, hpath, -⟩ := findPath_success_reconstruct s e blocks hsucc
  rw [hpath]
  exact goodNode_unblocked n hg

/-- Witness for C10 at a concrete succeeding query, instantiated at the
first waypoint of the returned path. -/
theorem findPath_waypoints_unblocked_witness :
    isPointBlocked ((findPath ⟨0, 0⟩ ⟨0, 0⟩ []).path.headD ⟨0, 0⟩).x
      ((findPath ⟨0, 0⟩ ⟨0, 0⟩ []).path.headD ⟨0, 0⟩).y [] = false :=
  findPath_waypoints_unblocked ⟨0, 0⟩ ⟨0, 0⟩ [] (by decide) _ (by decide)

/-! ## Termination and failure messages (C5, C7) -/

/-- The loop's final iteration count is bounded by the ceiling, and when
the loop ends without reaching the goal the timeout message is produced
exactly when the count reached the ceiling, the unreachable message
exactly when the open set emptied before it. -/
lemma astarLoop_iterations (blocks : List StoreBlock) (endS : Point) :
    ∀ (fuel iters : Nat) (openSet : List PathNode) (closed : List (ℤ × ℤ))
      (gsc : List ((ℤ × ℤ) × ℚ)),
      fuel + iters = MAX_PATHFINDING_ITERATIONS →
      iters ≤ (astarLoop blocks endS fuel iters openSet closed gsc).2 ∧
      (astarLoop blocks endS fuel iters openSet closed gsc).2 ≤
        MAX_PATHFINDING_ITERATIONS ∧
      ((astarLoop blocks endS fuel iters openSet closed gsc).1.success = false →
        ((astarLoop blocks endS fuel iters openSet closed gsc).1.message =
            "Pathfinding timeout - layout may be too complex" ↔
          (astarLoop blocks endS fuel iters openSet closed gsc).2 =
            MAX_PATHFINDING_ITERATIONS) ∧
        ((astarLoop blocks endS fuel iters openSet closed gsc).1.message =
            "No path found - destination may be unreachable" ↔
          (astarLoop blocks endS fuel iters openSet closed gsc).2 <
            MAX_PATHFINDING_ITERATIONS)) := by
  intro fuel
  induction fuel with
  | zero =>
    intro iters openSet closed gsc hsum
    have hiter : iters = MAX_PATHFINDING_ITERATIONS := by omega
    have hred : astarLoop blocks endS 0 iters openSet closed gsc =
        (noPathResult iters, iters) := rfl
    rw [hred]
    have hmsg : (noPathResult iters, iters).1.message =
        "Pathfinding timeout - layout may be too complex" := by
      unfold noPathResult
      dsimp only
      rw [if_pos (le_of_eq hiter.symm)]
    refine ⟨le_refl _, le_of_eq hiter, fun _ => ⟨?_, ?_⟩⟩
    · rw [hmsg]
      simp [hiter]
    · rw [hmsg]
      constructor
      · intro h
        exact absurd h (by decide)
      · intro h
        exact absurd (hiter ▸ h) (by omega)
  | succ fuel ih =>
    intro iters openSet closed gsc hsum
    have hlt : iters < MAX_PATHFINDING_ITERATIONS := by omega
    rw [astarLoop]
    cases hs : sortByF openSet with
    | nil =>
      dsimp only
      have hmsg : (noPathResult iters).message =
          "No path found - destination may be unreachable" := by
        unfold noPathResult
        dsimp only
        rw [if_neg (by omega)]
      refine ⟨le_refl _, le_of_lt hlt, fun _ => ⟨?_, ?_⟩⟩
      · rw [hmsg]
        constructor
        · intro h
          exact absurd h (by decide)
        · intro h
          exact absurd hlt (by omega)
      · rw [hmsg]
        simp [hlt]
    | cons current rest =>
      dsimp only
      by_cases hgoal : goalReached current endS = true
      · rw [if_pos hgoal]
        refine ⟨Nat.le_succ iters, by omega, fun hfail => ?_⟩
        exact absurd hfail (by simp [successResult])
      · rw [if_neg hgoal]
        refine ⟨?_, ?_, ?_⟩
        · exact le_trans (Nat.le_succ iters) (ih (iters + 1) _ _ _ (by omega)).1
        · exact (ih (iters + 1) _ _ _ (by omega)).2.1
        · exact (ih (iters + 1) _ _ _ (by omega)).2.2

/-- C7: on any query whose endpoints are not blocked, `findPath` runs at
most the 20000-iteration ceiling; when it fails, it reports the timeout
message exactly when the iteration count reached the ceiling and the
unreachable message exactly when the open set emptied before it — two
distinct caller-visible strings. -/
theorem findPath_terminates_message_dichotomy (s e : Point)
    (blocks : List StoreBlock)
    (hs : isPointBlocked (snapToGrid s.x) (snapToGrid s.y) blocks = false)
    (he : isPointBlocked (snapToGrid e.x) (snapToGrid e.y) blocks = false) :
    (findPathFull s e blocks).2 ≤ MAX_PATHFINDING_ITERATIONS ∧
    ((findPathFull s e blocks).1.success = false →
      ((findPathFull s e blocks).1.message =
          "Pathfinding timeout - layout may be too complex" ↔
        (findPathFull s e blocks).2 = MAX_PATHFINDING_ITERATIONS) ∧
      ((findPathFull s e blocks).1.message =
          "No path found - destination may be unreachable" ↔
        (findPathFull s e blocks).2 < MAX_PATHFINDING_ITERATIONS)) ∧
    ("Pathfinding timeout - layout may be too complex" ≠
      "No path found - destination may be unreachable") := by
  unfold findPathFull
  dsimp only
  rw [if_neg (by simp [hs]), if_neg (by simp [he])]
  exact ⟨(astarLoop_iterations _ _ _ _ _ _ _ (by omega)).2.1,
    (astarLoop_iterations _ _ _ _ _ _ _ (by omega)).2.2, by decide⟩

/-- C5: a blocked snapped start point makes `findPath` fail immediately
with the blocked-start message and a blocked snapped end point (with a
free start) with the blocked-end message, in both cases with iteration
count 0, i.e. before any search iteration; neither message is the
timeout message. -/
theorem findPath_blocked_endpoints_fail_fast (s e : Point)
    (blocks : List StoreBlock) :
    (isPointBlocked (snapToGrid s.x) (snapToGrid s.y) blocks = true →
      findPathFull s e blocks =
        (⟨false, [], 0, "Start point is blocked or too close to obstacles"⟩, 0)) ∧
    (isPointBlocked (snapToGrid s.x) (snapToGrid s.y) blocks = false →
      isPointBlocked (snapToGrid e.x) (snapToGrid e.y) blocks = true →
      findPathFull s e blocks =
        (⟨false, [], 0, "End point is blocked or too close to obstacles"⟩, 0)) ∧
    ("Start point is blocked or too close to obstacles" ≠
      "Pathfinding timeout - layout may be too complex") ∧
    ("End point is blocked or too close to obstacles" ≠
      "Pathfinding timeout - layout may be too complex") := by
  refine ⟨?_, ?_, by decide, by decide⟩
  · intro hb
    unfold findPathFull
    dsimp only
    rw [if_pos hb]
  · intro hb1 hb2
    unfold findPathFull
    dsimp only
    rw [if_neg (by simp [hb1]), if_pos hb2]

/-- Witness for C7 at a concrete query with free endpoints. -/
theorem findPath_terminates_message_dichotomy_witness :
    (findPathFull ⟨0, 0⟩ ⟨0, 0⟩ []).2 ≤ MAX_PATHFINDING_ITERATIONS ∧
    ((findPathFull ⟨0, 0⟩ ⟨0, 0⟩ []).1.success = false →
      ((findPathFull ⟨0, 0⟩ ⟨0, 0⟩ []).1.message =
          "Pathfinding timeout - layout may be too complex" ↔
        (findPathFull ⟨0, 0⟩ ⟨0, 0⟩ []).2 = MAX_PATHFINDING_ITERATIONS) ∧
      ((findPathFull ⟨0, 0⟩ ⟨0, 0⟩ []).1.message =
          "No path found - destination may be unreachable" ↔
        (findPathFull ⟨0, 0⟩ ⟨0, 0⟩ []).2 < MAX_PATHFINDING_ITERATIONS)) ∧
    ("Pathfinding timeout - layout may be too complex" ≠
      "No path found - destination may be unreachable") :=
  findPath_terminates_message_dichotomy ⟨0, 0⟩ ⟨0, 0⟩ [] (by decide) (by decide)

/-- Witness for C5 at a concrete query whose start is blocked. -/
theorem findPath_blocked_endpoints_fail_fast_witness :
    findPathFull ⟨0, 0⟩ ⟨5, 5⟩ [⟨"b", -1, -1, 2, 2⟩] =
      (⟨false, [], 0, "Start point is blocked or too close to obstacles"⟩, 0) :=
  (findPath_blocked_endpoints_fail_fast ⟨0, 0⟩ ⟨5, 5⟩ [⟨"b", -1, -1, 2, 2⟩]).1
    (by decide)

/-! ## Degenerate and concrete queries (C8, C9) -/

/-- A node sitting exactly on the snapped goal passes the goal test. -/
lemma goalReached_self (p : Point) (g h f : ℚ) :
    goalReached (.root p.x p.y g h f) p = true := by
  show (decide (mathAbs (p.x - p.x) < PATHFINDING_GRID_SIZE / 2) &&
    decide (mathAbs (p.y - p.y) < PATHFINDING_GRID_SIZE / 2)) = true
  rw [sub_self, sub_self]
  decide

/-- When the first sorted node already satisfies the goal test, the loop
returns success on its first iteration. -/
lemma astarLoop_single_goal (blocks : List StoreBlock) (endS : Point)
    (fuel iters : Nat) (n : PathNode) (closed : List (ℤ × ℤ))
    (gsc : List ((ℤ × ℤ) × ℚ)) (hgoal : goalReached n endS = true) :
    astarLoop blocks endS (fuel + 1) iters [n] closed gsc =
      (successResult n (iters + 1), iters + 1) := by
  rw [astarLoop]
  have hsort : sortByF [n] = [n] := rfl
  rw [hsort]
  dsimp only
  rw [if_pos hgoal]

/-- C8: a query whose start and end snap to the same free grid cell
succeeds on the first iteration, with a path of at least 1 waypoint and
distance exactly 0. -/
theorem findPath_same_cell_success (s e : Point) (blocks : List StoreBlock)
    (hsnap : (⟨snapToGrid s.x, snapToGrid s.y⟩ : Point) =
      ⟨snapToGrid e.x, snapToGrid e.y⟩)
    (hfree : isPointBlocked (snapToGrid s.x) (snapToGrid s.y) blocks = false) :
    (findPath s e blocks).success = true ∧
    1 ≤ (findPath s e blocks).path.length ∧
    (findPath s e blocks).distance = 0 := by
  have hx : snapToGrid s.x = snapToGrid e.x := congrArg Point.x hsnap
  have hy : snapToGrid s.y = snapToGrid e.y := congrArg Point.y hsnap
  have hfree' : isPointBlocked (snapToGrid e.x) (snapToGrid e.y) blocks = false := by
    rw [← hx, ← hy]
    exact hfree
  unfold findPath findPathFull
  dsimp only
  rw [if_neg (by simp [hfree]), if_neg (by simp [hfree'])]
  rw [hx, hy]
  rw [show MAX_PATHFINDING_ITERATIONS = 19999 + 1 from rfl]
  rw [astarLoop_single_goal _ _ _ _ _ _ _
    (goalReached_self (⟨snapToGrid e.x, snapToGrid e.y⟩ : Point) _ _ _)]
  exact ⟨rfl, Nat.le_refl 1, rfl⟩

/-- Witness for C8 at a concrete same-cell query. -/
theorem findPath_same_cell_success_witness :
    (findPath ⟨0, 0⟩ ⟨0, 0⟩ []).success = true ∧
    1 ≤ (findPath ⟨0, 0⟩ ⟨0, 0⟩ []).path.length ∧
    (findPath ⟨0, 0⟩ ⟨0, 0⟩ []).distance = 0 :=
  findPath_same_cell_success ⟨0, 0⟩ ⟨0, 0⟩ [] rfl rfl

/-- C9: on the concrete scenario with a single 2 m by 2 m block at
(5,5), a query from (0,0) to (10,0) succeeds and no waypoint of the path
lies inside the block's clearance-inflated bounds
([4.9, 7.1] on both axes). -/
theorem findPath_detour_scenario :
    (findPath ⟨0, 0⟩ ⟨10, 0⟩ [⟨"block1", 5, 5, 2, 2⟩]).success = true ∧
    ∀ p ∈ (findPath ⟨0, 0⟩ ⟨10, 0⟩ [⟨"block1", 5, 5, 2, 2⟩]).path,
      ¬((4.9 : ℚ) ≤ p.x ∧ p.x ≤ 7.1 ∧ (4.9 : ℚ) ≤ p.y ∧ p.y ≤ 7.1) := by
  constructor
  · decide
  · decide

end Pathfinder
